import Mathlib

/-!
Shallow embedding of the time-value core of mruby's `mrbgems/mruby-time/src/time.c`
(the point-in-time value engine of the specification).

Modelling conventions:
* `time_t` is modelled as `Int`.  The platform modelled is the common one with a
  signed 64-bit `time_t` (`MRB_TIME_T_UINT` false, `sizeof(time_t) == 8`), a
  64-bit `mrb_int` and a 32-bit C `int`, so `MRB_TIME_MIN = INT64_MIN` and
  `MRB_TIME_MAX = INT64_MAX`.  The overflow checks of `time_plus`/`time_minus`
  are translated literally (the `#else` branch of the source, which is
  equivalent to the `__builtin_*_overflow` branch on this platform); thanks to
  those checks no arithmetic in the modelled paths ever wraps, so `Int` with the
  explicit `MRB_TIME_MIN`/`MRB_TIME_MAX` bounds is the faithful semantics.
* C's truncating division on `time_t` is `Int.tdiv`.
* `mrb_float` is idealised as `ℚ` where a claim's formula coincides with the
  source's formula (the instant-difference of `time_minus`).
* Fallible operations return `Except TimeError _`; each `TimeError` constructor
  corresponds to one `mrb_raise` site of the source.
* The platform calendar conversions `gmtime_r`/`localtime_r`/`mktime` are not
  part of the excerpt; they are modelled from the spec (§4.3 CalendarProjector)
  as the standard proleptic-Gregorian decomposition, failing exactly when the
  resulting `tm_year` does not fit a 32-bit C `int` (glibc behaviour, and the
  spec's "value out of platform-representable range").  `timegm` IS part of the
  excerpt (lines 142-176 of time.c) and is translated from it.
-/

namespace MrubyTime

/-- Platform constant `MRB_TIME_MIN` (signed 64-bit `time_t`): `INT64_MIN`. -/
def MRB_TIME_MIN : Int := -(2 ^ 63)

/-- Platform constant `MRB_TIME_MAX` (signed 64-bit `time_t`): `INT64_MAX`. -/
def MRB_TIME_MAX : Int := 2 ^ 63 - 1

/-- The C `enum mrb_timezone` from `mruby/time.h` (only the two values used). -/
inductive mrb_timezone where
  | MRB_TIMEZONE_UTC
  | MRB_TIMEZONE_LOCAL
deriving DecidableEq, Repr

/-- C `struct tm`, fields in the C order. `tm_year` is years since 1900,
`tm_mon` is 0-based, `tm_mday` 1-based, `tm_yday` 0-based, `tm_wday` 0=Sunday. -/
structure Tm where
  tm_sec : Int
  tm_min : Int
  tm_hour : Int
  tm_mday : Int
  tm_mon : Int
  tm_year : Int
  tm_wday : Int
  tm_yday : Int
  tm_isdst : Int
deriving DecidableEq, Repr

/-- The C `struct mrb_time` (time.c lines 193-198). -/
structure mrb_time where
  sec : Int
  usec : Int
  timezone : mrb_timezone
  datetime : Tm
deriving DecidableEq, Repr

/-- Abstract error kinds; each constructor is one `mrb_raise` site of time.c.
`rangeError` is the `"%v out of Time range"` argument error, `overflow op` the
`int_overflow` raise `"time_t overflow in Time %s"`, `argError msg` the plain
argument errors of `time_mktime`. -/
inductive TimeError where
  | typeError
  | rangeError
  | overflow (op : String)
  | argError (msg : String)
deriving DecidableEq, Repr

/-- The `NDIV(x,y)` macro (time.c line 26): `(-(-((x)+1)/(y))-1)` with C's
truncating division. -/
def NDIV (x y : Int) : Int := -(Int.tdiv (-(x + 1)) y) - 1

/-- Number of days in each month (time.c lines 151-154), selected by leap flag. -/
def ndays (leap : Bool) : List Int :=
  if leap then [31, 29, 31, 30, 31, 30, 31, 31, 30, 31, 30, 31]
  else [31, 28, 31, 30, 31, 30, 31, 31, 30, 31, 30, 31]

/-- Function `is_leapyear` (time.c lines 142-146).  The C parameter is `unsigned int`,
so the `Int` argument is first reduced mod `2^32`. -/
def is_leapyear (y : Int) : Bool :=
  let u := y % 2 ^ 32
  u % 4 == 0 && (u % 100 != 0 || u % 400 == 0)

/-- Function `timegm` (`my_timgm`, time.c lines 148-175): forward calendar transform for
UTC, a literal translation of the two year loops and the month/day/h/m/s sums. -/
def timegm (t : Tm) : Int :=
  let nday := ndays (is_leapyear (t.tm_year + 1900))
  let r0 : Int :=
    if t.tm_year ≥ 70 then
      (((List.range (t.tm_year - 70).toNat).map
        (fun i => if is_leapyear ((70 + i) + 1900) then (366 : Int) * 24 * 60 * 60
                  else 365 * 24 * 60 * 60)).sum)
    else
      -(((List.range (70 - t.tm_year).toNat).map
        (fun i => if is_leapyear ((t.tm_year + i) + 1900) then (366 : Int) * 24 * 60 * 60
                  else 365 * 24 * 60 * 60)).sum)
  let r1 := r0 + ((nday.take t.tm_mon.toNat).sum) * 24 * 60 * 60
  r1 + (t.tm_mday - 1) * 24 * 60 * 60 + t.tm_hour * 60 * 60 + t.tm_min * 60 + t.tm_sec

/-- Modelled from the spec: the host-local timezone is resolved by the OS
(§4.3); the model fixes the local zone's UTC offset (its value is never
observed by any verified claim). -/
def localUtcOffset : Int := 0

/-- Gregorian `(year, month, day)` of a day count since the epoch
(days, not seconds); the standard civil-from-days decomposition.  All
divisions are floor divisions (`Int` `/` with positive divisor). -/
def civilFromDays (z0 : Int) : Int × Int × Int :=
  let z := z0 + 719468
  let era := z / 146097
  let doe := z - era * 146097
  let yoe := (doe - doe / 1460 + doe / 36524 - doe / 146096) / 365
  let y := yoe + era * 400
  let doy := doe - (365 * yoe + yoe / 4 - yoe / 100)
  let mp := (5 * doy + 2) / 153
  let d := doy - (153 * mp + 2) / 5 + 1
  let m := mp + (if mp < 10 then 3 else -9)
  (y + (if m ≤ 2 then 1 else 0), m, d)

/-- Inverse of `civilFromDays`: day count since the epoch of a civil date. -/
def daysFromCivil (y m d : Int) : Int :=
  let y1 := y - (if m ≤ 2 then 1 else 0)
  let era := y1 / 400
  let yoe := y1 - era * 400
  let doy := (153 * (m + (if m > 2 then -3 else 9)) + 2) / 5 + d - 1
  let doe := yoe * 365 + yoe / 4 - yoe / 100 + doy
  era * 146097 + doe - 719468

/-- Modelled from the spec: platform `gmtime_r` (CalendarProjector §4.3, UTC
branch) is not part of the excerpt.  Deterministic decomposition of epoch
seconds into `struct tm` fields; fails (returns `none`, the C `NULL`) exactly
when the resulting `tm_year` does not fit a 32-bit C `int`. -/
def gmtime_r (sec : Int) : Option Tm :=
  let days := sec / 86400
  let rem := sec % 86400
  let hour := rem / 3600
  let minute := (rem % 3600) / 60
  let s := rem % 60
  let c := civilFromDays days
  let year := c.1 - 1900
  let wday := (days + 4) % 7
  let yday := days - daysFromCivil c.1 1 1
  if year < -(2 ^ 31) ∨ year > 2 ^ 31 - 1 then none
  else some ⟨s, minute, hour, c.2.2, c.2.1 - 1, year, wday, yday, 0⟩

/-- Modelled from the spec: platform `localtime_r` (CalendarProjector §4.3,
local branch): the UTC decomposition shifted by the host zone offset. -/
def localtime_r (sec : Int) : Option Tm :=
  gmtime_r (sec + localUtcOffset)

/-- Modelled from the spec: platform `mktime` (forward transform, local
variant): inverse of `localtime_r`. -/
def mktime (t : Tm) : Int :=
  timegm t - localUtcOffset

/-- Function `time_update_datetime` (time.c lines 326-349): recomputes the cached
`datetime` from `(sec, timezone)`; `none` models the raising failure path. -/
def time_update_datetime (t : mrb_time) : Option mrb_time :=
  let aid := if t.timezone = mrb_timezone.MRB_TIMEZONE_UTC
             then gmtime_r t.sec else localtime_r t.sec
  match aid with
  | none => none
  | some d => some ⟨t.sec, t.usec, t.timezone, d⟩

/-- Function `time_alloc_time` (time.c lines 357-380): sets `sec`/`usec`, normalizes a
negative or `≥ 1000000` microsecond field by carrying whole seconds (the
`MRB_TIME_T_UINT` branch condition is `false` on the modelled platform), then
computes the calendar cache; failure of the calendar conversion is the
`"out of Time range"` error. -/
def time_alloc_time (sec usec : Int) (timezone : mrb_timezone) : Except TimeError mrb_time :=
  let p : Int × Int :=
    if usec < 0 then
      let sec2 := NDIV usec 1000000
      (sec + sec2, usec - sec2 * 1000000)
    else if usec ≥ 1000000 then
      let sec2 := Int.tdiv usec 1000000
      (sec + sec2, usec - sec2 * 1000000)
    else (sec, usec)
  match time_update_datetime ⟨p.1, p.2, timezone, ⟨0, 0, 0, 0, 0, 0, 0, 0, 0⟩⟩ with
  | none => Except.error TimeError.rangeError
  | some t => Except.ok t

/-- The `OUTINT` macro of `time_mktime` (time.c lines 493-497) on the modelled
platform (`MRB_INT_MAX > INT_MAX`, signed `time_t`): outside the 32-bit C
`int` range. -/
def OUTINT (x : Int) : Bool :=
  decide (x < -(2 ^ 31)) || decide (x > 2 ^ 31 - 1)

/-- Function `time_mktime` (time.c lines 485-535): validates the calendar fields,
applies the forward transform (`timegm` for UTC, `mktime` for local), handles
the `(time_t)-1` sentinel by retrying with `second+1` (epoch-minus-one-second
special case), and allocates the result. -/
def time_mktime (ayear amonth aday ahour amin asec ausec : Int)
    (timezone : mrb_timezone) : Except TimeError mrb_time :=
  let y := ayear - 1900
  if OUTINT y = true ∨
     amonth < 1 ∨ amonth > 12 ∨
     aday < 1 ∨ aday > 31 ∨
     ahour < 0 ∨ ahour > 24 ∨
     (ahour = 24 ∧ (amin > 0 ∨ asec > 0)) ∨
     amin < 0 ∨ amin > 59 ∨
     asec < 0 ∨ asec > 60 then
    Except.error (TimeError.argError "argument out of range")
  else
    let nowtime : Tm := ⟨asec, amin, ahour, aday, amonth - 1, y, 0, 0, -1⟩
    let mk := fun (t : Tm) =>
      if timezone = mrb_timezone.MRB_TIMEZONE_UTC then timegm t else mktime t
    let nowsecs := mk nowtime
    if nowsecs = -1 then
      let nowtime2 : Tm := ⟨nowtime.tm_sec + 1, nowtime.tm_min, nowtime.tm_hour,
        nowtime.tm_mday, nowtime.tm_mon, nowtime.tm_year, nowtime.tm_wday,
        nowtime.tm_yday, nowtime.tm_isdst⟩
      if mk nowtime2 ≠ 0 then Except.error (TimeError.argError "Not a valid time")
      else time_alloc_time (-1) ausec timezone
    else time_alloc_time nowsecs ausec timezone

/-- Function `time_eq` (time.c lines 576-588): the `other` operand is `none` when
`DATA_CHECK_GET_PTR` yields `NULL` (not a Time value); equality is
`sec == sec && usec == usec`, never raising. -/
def time_eq (tm1 : mrb_time) (other : Option mrb_time) : Bool :=
  match other with
  | none => false
  | some tm2 => tm1.sec == tm2.sec && tm1.usec == tm2.usec

/-- Function `time_cmp` (time.c lines 590-613): three-way comparison; `none` (the C
`nil`) when the other operand is not a Time value. -/
def time_cmp (tm1 : mrb_time) (other : Option mrb_time) : Option Int :=
  match other with
  | none => none
  | some tm2 =>
    if tm1.sec > tm2.sec then some 1
    else if tm1.sec < tm2.sec then some (-1)
    else if tm1.usec > tm2.usec then some 1
    else if tm1.usec < tm2.usec then some (-1)
    else some 0

/-- Function `time_plus` (time.c lines 621-648), after `mrb_to_time_t` has produced the
duration `(dsec, dusec)`: the checked addition of the `#else` branch (literally
translated; equivalent to `__builtin_add_overflow` on this platform), then
allocation with the summed microseconds. -/
def time_plus (tm : mrb_time) (dsec dusec : Int) : Except TimeError mrb_time :=
  if dsec ≥ 0 then
    if tm.sec > MRB_TIME_MAX - dsec then Except.error (TimeError.overflow "addition")
    else time_alloc_time (tm.sec + dsec) (tm.usec + dusec) tm.timezone
  else
    if tm.sec < MRB_TIME_MIN - dsec then Except.error (TimeError.overflow "addition")
    else time_alloc_time (tm.sec + dsec) (tm.usec + dusec) tm.timezone

/-- The right operand of `time_minus`: either another Time value
(`DATA_CHECK_GET_PTR` non-`NULL`) or a numeric duration already converted by
`mrb_to_time_t`. -/
inductive TimeOperand where
  | timeVal (t : mrb_time)
  | numVal (dsec dusec : Int)
deriving DecidableEq

/-- Result of `time_minus`: a floating-point duration (instant minus instant)
or a fresh Time value (instant minus numeric duration). -/
inductive TimeMinusResult where
  | duration (f : ℚ)
  | newTime (t : mrb_time)
deriving DecidableEq

/-- Function `time_minus` (time.c lines 650-693), default build (`MRB_NO_FLOAT` unset):
instant minus instant yields the float duration
`(sec-sec) + (usec-usec)/1.0e6`; instant minus numeric duration is the checked
subtraction of the `#else` branch followed by allocation. -/
def time_minus (tm : mrb_time) (other : TimeOperand) : Except TimeError TimeMinusResult :=
  match other with
  | TimeOperand.timeVal tm2 =>
    Except.ok (TimeMinusResult.duration
      (((tm.sec - tm2.sec : Int) : ℚ) + ((tm.usec - tm2.usec : Int) : ℚ) / 1000000))
  | TimeOperand.numVal dsec dusec =>
    if dsec ≥ 0 then
      if tm.sec < MRB_TIME_MIN + dsec then Except.error (TimeError.overflow "subtraction")
      else (time_alloc_time (tm.sec - dsec) (tm.usec - dusec) tm.timezone).map
        TimeMinusResult.newTime
    else
      if tm.sec > MRB_TIME_MAX + dsec then Except.error (TimeError.overflow "subtraction")
      else (time_alloc_time (tm.sec - dsec) (tm.usec - dusec) tm.timezone).map
        TimeMinusResult.newTime

/-- The instant-minus-instant branch of `time_minus` in an `MRB_NO_FLOAT`
build (time.c lines 664-668): integer seconds, decremented when the
microsecond difference is negative. -/
def time_minus_nofloat (tm tm2 : mrb_time) : Int :=
  let f := tm.sec - tm2.sec
  if tm.usec < tm2.usec then f - 1 else f

/-- Function `time_utc` (time.c lines 999-1008): in-place switch to UTC followed by the
unconditional recomputation of the calendar cache. -/
def time_utc (t : mrb_time) : Except TimeError mrb_time :=
  match time_update_datetime ⟨t.sec, t.usec, mrb_timezone.MRB_TIMEZONE_UTC, t.datetime⟩ with
  | none => Except.error TimeError.rangeError
  | some t2 => Except.ok t2

/-- Little-endian byte representation of a 64-bit `time_t` value (two's
complement), as `mrb_byte_hash` reads it. -/
def bytesOfInt64 (n : Int) : List Nat :=
  (List.range 8).map (fun i => ((n % 2 ^ 64).toNat / 256 ^ i) % 256)

/-- Little-endian byte representation of the 4-byte `enum mrb_timezone` field
(values of the `mruby/time.h` enum). -/
def bytesOfTimezone (tz : mrb_timezone) : List Nat :=
  (List.range 4).map (fun i =>
    ((match tz with
      | mrb_timezone.MRB_TIMEZONE_UTC => 1
      | mrb_timezone.MRB_TIMEZONE_LOCAL => 2) / 256 ^ i) % 256)

/-- Modelled from the spec: `mrb_byte_hash_step` (mruby core, outside the
excerpt).  The spec says only that the hash "combines the byte representations"
(§4.6); the combination is modelled as the injective accumulation of the byte
stream into a number. -/
def mrb_byte_hash_step (bytes : List Nat) (h : Nat) : Nat :=
  bytes.foldl (fun a b => a * 256 + b) h

/-- Modelled from the spec: `mrb_byte_hash` (mruby core, outside the excerpt):
the first step of the byte-stream combination. -/
def mrb_byte_hash (bytes : List Nat) : Nat :=
  mrb_byte_hash_step bytes 0

/-- Function `time_hash` (time.c lines 1040-1048): hashes the bytes of `sec`, then
`usec`, then `timezone` — and nothing else. -/
def time_hash (t : mrb_time) : Nat :=
  mrb_byte_hash_step (bytesOfTimezone t.timezone)
    (mrb_byte_hash_step (bytesOfInt64 t.usec)
      (mrb_byte_hash (bytesOfInt64 t.sec)))


lemma ndiv_neg (x : Int) (h : x < 0) : NDIV x 1000000 = x / 1000000 := by
  unfold NDIV
  rw [Int.tdiv_eq_ediv (by omega) (by omega)]
  omega

lemma time_alloc_time_ok_spec (s u : Int) (tz : mrb_timezone) (t : mrb_time)
    (h : time_alloc_time s u tz = Except.ok t) :
    0 ≤ t.usec ∧ t.usec < 1000000 ∧
    t.sec * 1000000 + t.usec = s * 1000000 + u ∧ t.timezone = tz := by
  unfold time_alloc_time time_update_datetime at h
  dsimp only at h
  rcases lt_or_ge u 0 with hu | hu
  · rw [if_pos (show u < 0 from hu)] at h
    rw [ndiv_neg u hu] at h
    dsimp only at h
    rcases haid : (if tz = mrb_timezone.MRB_TIMEZONE_UTC
        then gmtime_r (s + u / 1000000) else localtime_r (s + u / 1000000)) with _ | d
    · rw [haid] at h; exact absurd h (by simp)
    · rw [haid] at h
      simp only [Except.ok.injEq] at h
      subst h
      dsimp only
      refine ⟨by omega, by omega, by omega, rfl⟩
  · rw [if_neg (show ¬ u < 0 by omega)] at h
    rcases lt_or_ge u 1000000 with hu2 | hu2
    · rw [if_neg (show ¬ u ≥ 1000000 by omega)] at h
      dsimp only at h
      rcases haid : (if tz = mrb_timezone.MRB_TIMEZONE_UTC
          then gmtime_r s else localtime_r s) with _ | d
      · rw [haid] at h; exact absurd h (by simp)
      · rw [haid] at h
        simp only [Except.ok.injEq] at h
        subst h
        dsimp only
        refine ⟨by omega, by omega, by omega, rfl⟩
    · rw [if_pos (show u ≥ 1000000 from hu2)] at h
      rw [Int.tdiv_eq_ediv (by omega) (by omega)] at h
      dsimp only at h
      rcases haid : (if tz = mrb_timezone.MRB_TIMEZONE_UTC
          then gmtime_r (s + u / 1000000) else localtime_r (s + u / 1000000)) with _ | d
      · rw [haid] at h; exact absurd h (by simp)
      · rw [haid] at h
        simp only [Except.ok.injEq] at h
        subst h
        dsimp only
        refine ⟨by omega, by omega, by omega, rfl⟩

/-- C1: constructing an EpochValue from any integer seconds/microseconds pair
(microseconds possibly negative or `≥ 1000000`) yields, whenever construction
succeeds, a canonical microseconds field in `[0, 1000000)` whose total
`seconds*1000000 + microseconds` equals the input total exactly, for every
timezone mode. -/
theorem time_alloc_time_normalizes (s u : Int) (tz : mrb_timezone) (t : mrb_time)
    (h : time_alloc_time s u tz = Except.ok t) :
    (0 ≤ t.usec ∧ t.usec < 1000000) ∧
    t.sec * 1000000 + t.usec = s * 1000000 + u := by
  obtain ⟨h1, h2, h3, _⟩ := time_alloc_time_ok_spec s u tz t h
  exact ⟨⟨h1, h2⟩, h3⟩

/-- Witness for C1 at `(s, u) = (5, -1)`, UTC. -/
theorem time_alloc_time_normalizes_witness :
    (0 ≤ (mrb_time.mk 4 999999 mrb_timezone.MRB_TIMEZONE_UTC ⟨4, 0, 0, 1, 0, 70, 4, 0, 0⟩).usec ∧
      (mrb_time.mk 4 999999 mrb_timezone.MRB_TIMEZONE_UTC ⟨4, 0, 0, 1, 0, 70, 4, 0, 0⟩).usec < 1000000) ∧
    (mrb_time.mk 4 999999 mrb_timezone.MRB_TIMEZONE_UTC ⟨4, 0, 0, 1, 0, 70, 4, 0, 0⟩).sec * 1000000 +
      (mrb_time.mk 4 999999 mrb_timezone.MRB_TIMEZONE_UTC ⟨4, 0, 0, 1, 0, 70, 4, 0, 0⟩).usec =
      5 * 1000000 + (-1) :=
  time_alloc_time_normalizes 5 (-1) mrb_timezone.MRB_TIMEZONE_UTC
    (mrb_time.mk 4 999999 mrb_timezone.MRB_TIMEZONE_UTC ⟨4, 0, 0, 1, 0, 70, 4, 0, 0⟩) rfl

/-- C2: checked arithmetic: adding a duration whose seconds would push the
instant past `MRB_TIME_MAX` fails with the overflow error naming "addition";
subtracting one that would fall below `MRB_TIME_MIN` fails naming
"subtraction"; and any produced value carries the exact (unwrapped) total. -/
theorem time_plus_minus_overflow_checked (t : mrb_time) (dsec dusec : Int)
    (ht : MRB_TIME_MIN ≤ t.sec ∧ t.sec ≤ MRB_TIME_MAX) :
    (t.sec + dsec > MRB_TIME_MAX →
      time_plus t dsec dusec = Except.error (TimeError.overflow "addition")) ∧
    (t.sec - dsec < MRB_TIME_MIN →
      time_minus t (TimeOperand.numVal dsec dusec) =
        Except.error (TimeError.overflow "subtraction")) ∧
    (∀ r, time_plus t dsec dusec = Except.ok r →
      r.sec * 1000000 + r.usec = (t.sec + dsec) * 1000000 + (t.usec + dusec)) ∧
    (∀ r, time_minus t (TimeOperand.numVal dsec dusec) =
        Except.ok (TimeMinusResult.newTime r) →
      r.sec * 1000000 + r.usec = (t.sec - dsec) * 1000000 + (t.usec - dusec)) := by
  refine ⟨?_, ?_, ?_, ?_⟩
  · intro hover
    unfold time_plus
    rcases le_or_lt 0 dsec with hd | hd
    · rw [if_pos (show dsec ≥ 0 from hd), if_pos (show t.sec > MRB_TIME_MAX - dsec by omega)]
    · exact absurd hover (by omega)
  · intro hunder
    unfold time_minus
    dsimp only
    rcases le_or_lt 0 dsec with hd | hd
    · rw [if_pos (show dsec ≥ 0 from hd), if_pos (show t.sec < MRB_TIME_MIN + dsec by omega)]
    · exact absurd hunder (by omega)
  · intro r hr
    unfold time_plus at hr
    rcases le_or_lt 0 dsec with hd | hd
    · rw [if_pos (show dsec ≥ 0 from hd)] at hr
      rcases lt_or_ge (MRB_TIME_MAX - dsec) t.sec with hc | hc
      · rw [if_pos (show t.sec > MRB_TIME_MAX - dsec from hc)] at hr
        exact absurd hr (by simp)
      · rw [if_neg (show ¬ t.sec > MRB_TIME_MAX - dsec by omega)] at hr
        have := time_alloc_time_ok_spec _ _ _ _ hr
        omega
    · rw [if_neg (show ¬ dsec ≥ 0 by omega)] at hr
      rcases lt_or_ge t.sec (MRB_TIME_MIN - dsec) with hc | hc
      · rw [if_pos (show t.sec < MRB_TIME_MIN - dsec from hc)] at hr
        exact absurd hr (by simp)
      · rw [if_neg (show ¬ t.sec < MRB_TIME_MIN - dsec by omega)] at hr
        have := time_alloc_time_ok_spec _ _ _ _ hr
        omega
  · intro r hr
    unfold time_minus at hr
    dsimp only at hr
    rcases le_or_lt 0 dsec with hd | hd
    · rw [if_pos (show dsec ≥ 0 from hd)] at hr
      rcases lt_or_ge t.sec (MRB_TIME_MIN + dsec) with hc | hc
      · rw [if_pos (show t.sec < MRB_TIME_MIN + dsec from hc)] at hr
        exact absurd hr (by simp)
      · rw [if_neg (show ¬ t.sec < MRB_TIME_MIN + dsec by omega)] at hr
        rcases ha : time_alloc_time (t.sec - dsec) (t.usec - dusec) t.timezone with e | r2
        · rw [ha] at hr; exact absurd hr (by simp [Except.map])
        · rw [ha] at hr
          simp only [Except.map, Except.ok.injEq, TimeMinusResult.newTime.injEq] at hr
          subst hr
          have := time_alloc_time_ok_spec _ _ _ _ ha
          omega
    · rw [if_neg (show ¬ dsec ≥ 0 by omega)] at hr
      rcases lt_or_ge (MRB_TIME_MAX + dsec) t.sec with hc | hc
      · rw [if_pos (show t.sec > MRB_TIME_MAX + dsec from hc)] at hr
        exact absurd hr (by simp)
      · rw [if_neg (show ¬ t.sec > MRB_TIME_MAX + dsec by omega)] at hr
        rcases ha : time_alloc_time (t.sec - dsec) (t.usec - dusec) t.timezone with e | r2
        · rw [ha] at hr; exact absurd hr (by simp [Except.map])
        · rw [ha] at hr
          simp only [Except.map, Except.ok.injEq, TimeMinusResult.newTime.injEq] at hr
          subst hr
          have := time_alloc_time_ok_spec _ _ _ _ ha
          omega

/-- Witness for C2: one second past the maximum representable instant fails
with "addition"; one second below the minimum fails with "subtraction". -/
theorem time_plus_minus_overflow_checked_witness :
    time_plus (mrb_time.mk MRB_TIME_MAX 0 mrb_timezone.MRB_TIMEZONE_UTC ⟨0, 0, 0, 0, 0, 0, 0, 0, 0⟩) 1 0 =
      Except.error (TimeError.overflow "addition") ∧
    time_minus (mrb_time.mk MRB_TIME_MIN 0 mrb_timezone.MRB_TIMEZONE_UTC ⟨0, 0, 0, 0, 0, 0, 0, 0, 0⟩)
      (TimeOperand.numVal 1 0) = Except.error (TimeError.overflow "subtraction") := by
  constructor
  · exact (time_plus_minus_overflow_checked
      (mrb_time.mk MRB_TIME_MAX 0 mrb_timezone.MRB_TIMEZONE_UTC ⟨0, 0, 0, 0, 0, 0, 0, 0, 0⟩) 1 0
      (by decide)).1 (by decide)
  · exact (time_plus_minus_overflow_checked
      (mrb_time.mk MRB_TIME_MIN 0 mrb_timezone.MRB_TIMEZONE_UTC ⟨0, 0, 0, 0, 0, 0, 0, 0, 0⟩) 1 0
      (by decide)).2.1 (by decide)


/-- C3: `time_cmp` between two constructed instants is the three-way
lexicographic comparison on `(seconds, microseconds)`: `1` exactly when the
left pair is lexicographically greater, `-1` exactly when smaller, `0` exactly
on ties (which coincide with `time_eq`); exactly one of the three outcomes
holds for every pair, so the ordering is total. -/
theorem time_cmp_lex_trichotomy (a b : mrb_time) :
    (time_cmp a (some b) = some 1 ↔
      (a.sec > b.sec ∨ (a.sec = b.sec ∧ a.usec > b.usec))) ∧
    (time_cmp a (some b) = some (-1) ↔
      (a.sec < b.sec ∨ (a.sec = b.sec ∧ a.usec < b.usec))) ∧
    (time_cmp a (some b) = some 0 ↔ (a.sec = b.sec ∧ a.usec = b.usec)) ∧
    (time_cmp a (some b) = some 0 ↔ time_eq a (some b) = true) ∧
    ((time_cmp a (some b) = some 1 ∧ time_cmp a (some b) ≠ some (-1) ∧
        time_cmp a (some b) ≠ some 0) ∨
     (time_cmp a (some b) ≠ some 1 ∧ time_cmp a (some b) = some (-1) ∧
        time_cmp a (some b) ≠ some 0) ∨
     (time_cmp a (some b) ≠ some 1 ∧ time_cmp a (some b) ≠ some (-1) ∧
        time_cmp a (some b) = some 0)) := by
  unfold time_cmp time_eq
  dsimp only
  split_ifs with h1 h2 h3 h4 <;>
    simp only [Option.some.injEq, ne_eq, Bool.and_eq_true, beq_iff_eq, true_iff,
      iff_true, false_iff, iff_false, not_true, not_false_eq_true, true_and, and_true] <;>
    omega

/-- C4: two EpochValues are equal exactly when their `seconds` and
`microseconds` agree; the timezone mode and the cached calendar projection do
not participate (witnessed by the equality of the epoch instant in UTC mode
with the same instant in local mode, carrying distinct projections). -/
theorem time_eq_iff_sec_usec :
    (∀ a b : mrb_time, time_eq a (some b) = true ↔ (a.sec = b.sec ∧ a.usec = b.usec)) ∧
    time_eq (mrb_time.mk 0 0 mrb_timezone.MRB_TIMEZONE_UTC ⟨0, 0, 0, 1, 0, 70, 4, 0, 0⟩)
      (some (mrb_time.mk 0 0 mrb_timezone.MRB_TIMEZONE_LOCAL ⟨0, 0, 1, 1, 0, 70, 4, 0, 0⟩)) = true := by
  constructor
  · intro a b
    unfold time_eq
    simp [Bool.and_eq_true, beq_iff_eq]
  · decide

/-- C10: comparing a constructed instant with a value that is not a time
yields `nil` (no result) rather than an error, and equality with such a value
is `false` rather than an error. -/
theorem time_cmp_eq_nontime (a : mrb_time) :
    time_cmp a none = none ∧ time_eq a none = false :=
  ⟨rfl, rfl⟩

/-- C8: subtracting an instant from an instant returns a duration (not a new
Time value): with floating point available it is
`(a.sec - b.sec) + (a.usec - b.usec)/1e6`; in an `MRB_NO_FLOAT` build it is the
whole-seconds difference rounded toward negative infinity, i.e.
`a.sec - b.sec` decremented by one when `a.usec < b.usec`. -/
theorem time_minus_instant_duration (a b : mrb_time)
    (ha : 0 ≤ a.usec ∧ a.usec < 1000000) (hb : 0 ≤ b.usec ∧ b.usec < 1000000) :
    time_minus a (TimeOperand.timeVal b) =
      Except.ok (TimeMinusResult.duration
        (((a.sec : ℚ) - (b.sec : ℚ)) + (((a.usec : ℚ) - (b.usec : ℚ)) / 1000000))) ∧
    time_minus_nofloat a b = a.sec - b.sec - (if a.usec < b.usec then 1 else 0) ∧
    time_minus_nofloat a b =
      ⌊((a.sec : ℚ) - (b.sec : ℚ)) + (((a.usec : ℚ) - (b.usec : ℚ)) / 1000000)⌋ := by
  refine ⟨?_, ?_, ?_⟩
  · unfold time_minus
    dsimp only
    congr 2
    push_cast
    ring
  · unfold time_minus_nofloat
    dsimp only
    split_ifs <;> omega
  · unfold time_minus_nofloat
    dsimp only
    have hcast : ((1000000 : ℚ)) = ((1000000 : ℕ) : ℚ) := by norm_num
    have hfl : (⌊(((a.usec - b.usec : Int) : ℚ)) / ((1000000 : ℕ) : ℚ)⌋ : Int) =
        (a.usec - b.usec) / ((1000000 : ℕ) : Int) := Rat.floor_intCast_div_natCast _ _
    have hsum : ((a.sec : ℚ) - (b.sec : ℚ)) + (((a.usec : ℚ) - (b.usec : ℚ)) / 1000000) =
        ((a.sec - b.sec : Int) : ℚ) + (((a.usec - b.usec : Int) : ℚ)) / ((1000000 : ℕ) : ℚ) := by
      push_cast
      ring
    rw [hsum, Int.floor_int_add, hfl]
    split_ifs <;> omega

/-- Witness for C8 at `a = (3 s, 500000 µs)`, `b = (1 s, 600000 µs)`:
duration `19/10`, no-float difference `1 = ⌊19/10⌋`. -/
theorem time_minus_instant_duration_witness :
    time_minus (mrb_time.mk 3 500000 mrb_timezone.MRB_TIMEZONE_UTC ⟨3, 0, 0, 1, 0, 70, 4, 0, 0⟩)
      (TimeOperand.timeVal (mrb_time.mk 1 600000 mrb_timezone.MRB_TIMEZONE_UTC ⟨1, 0, 0, 1, 0, 70, 4, 0, 0⟩)) =
      Except.ok (TimeMinusResult.duration
        ((((mrb_time.mk 3 500000 mrb_timezone.MRB_TIMEZONE_UTC ⟨3, 0, 0, 1, 0, 70, 4, 0, 0⟩).sec : ℚ) -
          ((mrb_time.mk 1 600000 mrb_timezone.MRB_TIMEZONE_UTC ⟨1, 0, 0, 1, 0, 70, 4, 0, 0⟩).sec : ℚ)) +
         ((((mrb_time.mk 3 500000 mrb_timezone.MRB_TIMEZONE_UTC ⟨3, 0, 0, 1, 0, 70, 4, 0, 0⟩).usec : ℚ) -
           ((mrb_time.mk 1 600000 mrb_timezone.MRB_TIMEZONE_UTC ⟨1, 0, 0, 1, 0, 70, 4, 0, 0⟩).usec : ℚ)) / 1000000))) ∧
    time_minus_nofloat (mrb_time.mk 3 500000 mrb_timezone.MRB_TIMEZONE_UTC ⟨3, 0, 0, 1, 0, 70, 4, 0, 0⟩)
      (mrb_time.mk 1 600000 mrb_timezone.MRB_TIMEZONE_UTC ⟨1, 0, 0, 1, 0, 70, 4, 0, 0⟩) =
      (mrb_time.mk 3 500000 mrb_timezone.MRB_TIMEZONE_UTC ⟨3, 0, 0, 1, 0, 70, 4, 0, 0⟩).sec -
      (mrb_time.mk 1 600000 mrb_timezone.MRB_TIMEZONE_UTC ⟨1, 0, 0, 1, 0, 70, 4, 0, 0⟩).sec -
      (if (mrb_time.mk 3 500000 mrb_timezone.MRB_TIMEZONE_UTC ⟨3, 0, 0, 1, 0, 70, 4, 0, 0⟩).usec <
          (mrb_time.mk 1 600000 mrb_timezone.MRB_TIMEZONE_UTC ⟨1, 0, 0, 1, 0, 70, 4, 0, 0⟩).usec then 1 else 0) ∧
    time_minus_nofloat (mrb_time.mk 3 500000 mrb_timezone.MRB_TIMEZONE_UTC ⟨3, 0, 0, 1, 0, 70, 4, 0, 0⟩)
      (mrb_time.mk 1 600000 mrb_timezone.MRB_TIMEZONE_UTC ⟨1, 0, 0, 1, 0, 70, 4, 0, 0⟩) =
      ⌊(((mrb_time.mk 3 500000 mrb_timezone.MRB_TIMEZONE_UTC ⟨3, 0, 0, 1, 0, 70, 4, 0, 0⟩).sec : ℚ) -
        ((mrb_time.mk 1 600000 mrb_timezone.MRB_TIMEZONE_UTC ⟨1, 0, 0, 1, 0, 70, 4, 0, 0⟩).sec : ℚ)) +
       ((((mrb_time.mk 3 500000 mrb_timezone.MRB_TIMEZONE_UTC ⟨3, 0, 0, 1, 0, 70, 4, 0, 0⟩).usec : ℚ) -
         ((mrb_time.mk 1 600000 mrb_timezone.MRB_TIMEZONE_UTC ⟨1, 0, 0, 1, 0, 70, 4, 0, 0⟩).usec : ℚ)) / 1000000)⌋ :=
  time_minus_instant_duration _ _ (by decide) (by decide)

set_option maxRecDepth 8000 in
/-- Counterexample to C5 as stated: the epoch instant in UTC mode and the same
instant in local mode are equal under `time_eq` (equality ignores the timezone
mode), yet their hash codes differ, because `time_hash` feeds the
`timezone_mode` bytes into the hash while equality does not consult them. -/
theorem time_hash_eq_inconsistent_cex :
    time_eq (mrb_time.mk 0 0 mrb_timezone.MRB_TIMEZONE_UTC ⟨0, 0, 0, 1, 0, 70, 4, 0, 0⟩)
      (some (mrb_time.mk 0 0 mrb_timezone.MRB_TIMEZONE_LOCAL ⟨0, 0, 0, 1, 0, 70, 4, 0, 0⟩)) = true ∧
    time_hash (mrb_time.mk 0 0 mrb_timezone.MRB_TIMEZONE_UTC ⟨0, 0, 0, 1, 0, 70, 4, 0, 0⟩) ≠
    time_hash (mrb_time.mk 0 0 mrb_timezone.MRB_TIMEZONE_LOCAL ⟨0, 0, 0, 1, 0, 70, 4, 0, 0⟩) := by
  constructor
  · decide
  · decide

/-- C5 (amended): the hash code is a pure function of the `seconds`,
`microseconds` and `timezone_mode` fields only — the cached calendar
projection is excluded — so any two EpochValues that are equal AND share the
same timezone mode have equal hash codes (equal values with different
timezone modes may hash differently). -/
theorem time_hash_pure_function (t1 t2 : mrb_time)
    (hs : t1.sec = t2.sec) (hu : t1.usec = t2.usec) (hz : t1.timezone = t2.timezone) :
    time_hash t1 = time_hash t2 ∧ time_eq t1 (some t2) = true := by
  constructor
  · unfold time_hash
    rw [hs, hu, hz]
  · unfold time_eq
    simp [hs, hu]

/-- Witness for C5 (amended): two values with the same `(sec, usec, timezone)`
but different cached calendar projections hash identically. -/
theorem time_hash_pure_function_witness :
    time_hash (mrb_time.mk 1 2 mrb_timezone.MRB_TIMEZONE_UTC ⟨1, 0, 0, 1, 0, 70, 4, 0, 0⟩) =
      time_hash (mrb_time.mk 1 2 mrb_timezone.MRB_TIMEZONE_UTC ⟨9, 9, 9, 9, 9, 99, 9, 9, 9⟩) ∧
    time_eq (mrb_time.mk 1 2 mrb_timezone.MRB_TIMEZONE_UTC ⟨1, 0, 0, 1, 0, 70, 4, 0, 0⟩)
      (some (mrb_time.mk 1 2 mrb_timezone.MRB_TIMEZONE_UTC ⟨9, 9, 9, 9, 9, 99, 9, 9, 9⟩)) = true :=
  time_hash_pure_function
    (mrb_time.mk 1 2 mrb_timezone.MRB_TIMEZONE_UTC ⟨1, 0, 0, 1, 0, 70, 4, 0, 0⟩)
    (mrb_time.mk 1 2 mrb_timezone.MRB_TIMEZONE_UTC ⟨9, 9, 9, 9, 9, 99, 9, 9, 9⟩)
    rfl rfl rfl

set_option maxRecDepth 8000 in
/-- C7: constructing from UTC calendar fields `(1970,1,1,0,0,0,0)` yields
`seconds = 0`; constructing from `(1969,12,31,23,59,59,0)` yields
`seconds = -1` — the forward transform itself reports the `-1` failure
sentinel there, and the `second+1` retry yields exactly epoch, so the value is
reinterpreted as epoch-minus-one-second — and `compare` between the first and
the second returns greater (`1`). -/
theorem time_mktime_epoch_scenario :
    (∃ t0 t1,
      time_mktime 1970 1 1 0 0 0 0 mrb_timezone.MRB_TIMEZONE_UTC = Except.ok t0 ∧
      t0.sec = 0 ∧
      time_mktime 1969 12 31 23 59 59 0 mrb_timezone.MRB_TIMEZONE_UTC = Except.ok t1 ∧
      t1.sec = -1 ∧
      time_cmp t0 (some t1) = some 1) ∧
    timegm ⟨59, 59, 23, 31, 11, 69, 0, 0, -1⟩ = -1 ∧
    timegm ⟨60, 59, 23, 31, 11, 69, 0, 0, -1⟩ = 0 := by
  refine ⟨⟨mrb_time.mk 0 0 mrb_timezone.MRB_TIMEZONE_UTC ⟨0, 0, 0, 1, 0, 70, 4, 0, 0⟩,
    mrb_time.mk (-1) 0 mrb_timezone.MRB_TIMEZONE_UTC ⟨59, 59, 23, 31, 11, 69, 3, 364, 0⟩,
    ?_, rfl, ?_, rfl, rfl⟩, ?_, ?_⟩ <;> rfl

/-- C9: switching an already-UTC instant to UTC again is the identity: the
`seconds` and `microseconds` fields are unchanged and the recomputed calendar
projection is identical to the cached one. -/
theorem time_utc_idempotent (t : mrb_time)
    (h1 : t.timezone = mrb_timezone.MRB_TIMEZONE_UTC)
    (h2 : time_update_datetime t = some t) :
    time_utc t = Except.ok t := by
  obtain ⟨sec, usec, tz, dt⟩ := t
  dsimp only at h1
  subst h1
  unfold time_utc
  rw [h2]

/-- Witness for C9 at the epoch instant in UTC mode. -/
theorem time_utc_idempotent_witness :
    time_utc (mrb_time.mk 0 0 mrb_timezone.MRB_TIMEZONE_UTC ⟨0, 0, 0, 1, 0, 70, 4, 0, 0⟩) =
      Except.ok (mrb_time.mk 0 0 mrb_timezone.MRB_TIMEZONE_UTC ⟨0, 0, 0, 1, 0, 70, 4, 0, 0⟩) :=
  time_utc_idempotent
    (mrb_time.mk 0 0 mrb_timezone.MRB_TIMEZONE_UTC ⟨0, 0, 0, 1, 0, 70, 4, 0, 0⟩) rfl rfl

end MrubyTime
